import Mathlib

/-!
Shallow embedding of the `roofig` package (`src/roofig/__init__.py`):
the `FitParameters` collection (dynamic attribute store over engine
primitives) and the `Plotter` curve sampler.

Modelling conventions:
* Python machine floats are modelled by exact rationals `ℚ`; where the
  special IEEE values matter (numpy division by a zero integral) the type
  `PyFloat` adds `inf`, `-inf` and `nan` on top of exact rationals.
* Fallible Python code (exceptions) is modelled with `Except Err`.
* The external ROOT engine primitives (`RooRealVar`, `RooCategory`) are
  modelled as records carrying exactly the state the source reads and
  writes (value, bounds, constancy, category levels).  A `RooRealVar`
  additionally carries a creation counter `id` so that "the same entity,
  mutated in place" and "a freshly constructed replacement entity" are
  distinguishable states.
-/

/-- IEEE-style float values: an exact rational, or one of the three
non-finite values numpy arithmetic can produce. -/
inductive PyFloat where
  | num (q : ℚ)
  | inf
  | ninf
  | nan
deriving DecidableEq, Repr

/-- `true` exactly on finite values. -/
def PyFloat.isFinite : PyFloat → Bool
  | .num _ => true
  | _ => false

/-- Float division including the IEEE zero-divisor behaviour numpy applies
to `ys /= integral` (a RuntimeWarning, not an exception): `a / 0` is
`±inf` for `a ≠ 0` and `nan` for `a = 0`. -/
def pyDiv : PyFloat → PyFloat → PyFloat
  | .nan, _ => .nan
  | _, .nan => .nan
  | .num a, .num b =>
    if b ≠ 0 then .num (a / b)
    else if 0 < a then .inf
    else if a < 0 then .ninf
    else .nan
  | .num _, .inf => .num 0
  | .num _, .ninf => .num 0
  | .inf, .num b => if 0 ≤ b then .inf else .ninf
  | .ninf, .num b => if 0 ≤ b then .ninf else .inf
  | .inf, .inf => .nan
  | .inf, .ninf => .nan
  | .ninf, .inf => .nan
  | .ninf, .ninf => .nan

/-- Float multiplication with the IEEE non-finite rules (`inf * 0 = nan`). -/
def pyMul : PyFloat → PyFloat → PyFloat
  | .nan, _ => .nan
  | _, .nan => .nan
  | .num a, .num b => .num (a * b)
  | .inf, .num a => if 0 < a then .inf else if a < 0 then .ninf else .nan
  | .num a, .inf => if 0 < a then .inf else if a < 0 then .ninf else .nan
  | .ninf, .num a => if 0 < a then .ninf else if a < 0 then .inf else .nan
  | .num a, .ninf => if 0 < a then .ninf else if a < 0 then .inf else .nan
  | .inf, .inf => .inf
  | .ninf, .ninf => .inf
  | .inf, .ninf => .ninf
  | .ninf, .inf => .ninf

/-- The engine scalar primitive (`ROOT.RooRealVar`) as the source uses it:
name, current value, range, constancy.  `id` is a creation counter making
entity identity observable. -/
structure RooRealVar where
  id : ℕ
  name : String
  val : ℚ
  min : PyFloat
  max : PyFloat
  constant : Bool
deriving DecidableEq, Repr

/-- The engine categorical primitive (`ROOT.RooCategory`): a name and the
`defineType(label, code)` pairs issued on it. -/
structure CatVar where
  name : String
  levels : List (String × ℤ)
  constant : Bool
deriving DecidableEq, Repr

/-- The Python objects that can end up stored in a `FitParameters`
attribute slot: the source's `FitParameters.RealVar` wrapper, a raw engine
`RooRealVar`, a raw engine `RooCategory`, or some unrelated object
(modelled by a string). -/
inductive PyObj where
  | realVar (v : RooRealVar)
  | rooReal (v : RooRealVar)
  | rooCat (c : CatVar)
  | pyStr (s : String)
deriving DecidableEq, Repr

/-- Values assignable to an attribute.  `type(value) in [int, float]`
holds exactly for the first two constructors. -/
inductive PyVal where
  | int (n : ℤ)
  | float (q : ℚ)
  | obj (o : PyObj)
  | pyNone
deriving DecidableEq, Repr

/-- The numeric payload when `type(value) in [int, float]`, else `none`. -/
def numericValue : PyVal → Option ℚ
  | .int n => some (n : ℚ)
  | .float q => some q
  | _ => none

/-- Exceptions the embedded operations can surface. -/
inductive Err where
  | configurationError (msg : String)
  | valueError
  | typeError
  | attributeError
  | keyError
deriving DecidableEq, Repr

/-- Lookup in an insertion-ordered attribute dictionary (`__dict__`). -/
def dictGet : List (String × PyVal) → String → Option PyVal
  | [], _ => none
  | (k, v) :: rest, key => if k = key then some v else dictGet rest key

/-- Assignment in the attribute dictionary: overwrite in place, else
append. -/
def dictSet : List (String × PyVal) → String → PyVal → List (String × PyVal)
  | [], key, v => [(key, v)]
  | (k, w) :: rest, key, v =>
    if k = key then (key, v) :: rest else (k, w) :: dictSet rest key v

/-- Key removal (`__dict__.pop`). -/
def dictPop : List (String × PyVal) → String → List (String × PyVal)
  | [], _ => []
  | (k, w) :: rest, key => if k = key then rest else (k, w) :: dictPop rest key

/-- `set.add` on the tracked-name set, modelled as a duplicate-free list to
keep the membership order observable. -/
def listInsert (l : List String) (x : String) : List String :=
  if x ∈ l then l else l ++ [x]

/-- The collection state: the instance attribute dictionary (parameter
slots), the tracked-name set `param_list`, the engine's creation counter,
and the warnings printed so far. -/
structure FitParameters where
  attrs : List (String × PyVal)
  param_list : List String
  nextId : ℕ
  log : List String
deriving DecidableEq, Repr

/-- `FitParameters.__init__`. -/
def initFitParameters : FitParameters := ⟨[], [], 0, []⟩

/-- Class-level attributes visible to `hasattr` even before any parameter
is stored under the name. -/
def classAttrs : List String :=
  ["param_list", "r", "add_param", "expand_params", "add_observable",
   "add_category", "pop", "glob"]

/-- `hasattr(self, name)`. -/
def pyHasattr (fp : FitParameters) (name : String) : Bool :=
  (dictGet fp.attrs name).isSome || classAttrs.contains name

/-- `getattr(self, name).setVal(value)`: defined on the scalar wrapper
(which forwards to its `RooRealVar`) and on a raw `RooRealVar`; any other
stored object has no `setVal` and raises `AttributeError`. -/
def PyVal.trySetVal : PyVal → ℚ → Option PyVal
  | .obj (.realVar v), q => some (.obj (.realVar { v with val := q }))
  | .obj (.rooReal v), q => some (.obj (.rooReal { v with val := q }))
  | _, _ => none

/-- The override warning printed by `FitParameters.__setattr__`. -/
def warningMsg (name : String) : String := s!"warning: overriding \"{name}\""

/-- `FitParameters.__setattr__`: on an existing attribute a numeric value
is forwarded to the stored object's `setVal` (in-place mutation); any
other value prints an override warning and then rebinds the attribute;
a fresh attribute is simply bound. -/
def pySetattr (fp : FitParameters) (name : String) (value : PyVal) :
    Except Err FitParameters :=
  if pyHasattr fp name then
    match numericValue value with
    | some q =>
      match dictGet fp.attrs name with
      | some stored =>
        match stored.trySetVal q with
        | some stored' => .ok { fp with attrs := dictSet fp.attrs name stored' }
        | none => .error .attributeError
      | none => .error .attributeError
    | none =>
      .ok { fp with attrs := dictSet fp.attrs name value,
                    log := fp.log ++ [warningMsg name] }
  else
    .ok { fp with attrs := dictSet fp.attrs name value }

/-- `FitParameters.RealVar.__init__`, i.e. `RooRealVar(name, name, *args)`:
one numeric argument builds a constant value-only variable with an
unbounded range, two build a range variable whose value is the range
midpoint, three build `(value, min, max)`; any other arity is rejected by
the engine. -/
def RooRealVar.construct (id : ℕ) (name : String) (args : List ℚ) :
    Option RooRealVar :=
  match args with
  | [v] => some ⟨id, name, v, .ninf, .inf, true⟩
  | [lo, hi] => some ⟨id, name, (lo + hi) / 2, .num lo, .num hi, false⟩
  | [v, lo, hi] => some ⟨id, name, v, .num lo, .num hi, false⟩
  | _ => none

/-- `FitParameters.add_param`: construct a fresh wrapper, add the name to
`param_list`, then bind it through `__setattr__`. -/
def FitParameters.add_param (fp : FitParameters) (name : String)
    (args : List ℚ) : Except Err FitParameters :=
  match RooRealVar.construct fp.nextId name args with
  | none => .error .typeError
  | some v =>
    let fp1 : FitParameters :=
      { fp with nextId := fp.nextId + 1,
                param_list := listInsert fp.param_list name }
    pySetattr fp1 name (.obj (.realVar v))

/-- One piece of a `str.format` template: literal text or a `{field}`. -/
inductive TplPart where
  | lit (s : String)
  | field (n : String)
deriving DecidableEq, Repr

/-- Assoc lookup used by `formatTpl` (a missing field is a `KeyError`). -/
def lookupStr : List (String × String) → String → Option String
  | [], _ => none
  | (k, v) :: rest, n => if k = n then some v else lookupStr rest n

/-- `template.format(**env)` over the tokenised template. -/
def formatTpl : List TplPart → List (String × String) → Option String
  | [], _ => some ""
  | .lit s :: rest, env => (formatTpl rest env).map (fun r => s ++ r)
  | .field n :: rest, env =>
    match lookupStr env n with
    | none => none
    | some v => (formatTpl rest env).map (fun r => v ++ r)

/-- An axis value supplied to `expand_params` (the example mixes ints and
strings). -/
inductive AxisVal where
  | int (n : ℤ)
  | str (s : String)
deriving DecidableEq, Repr

/-- `str(value)` as `format` renders an axis value. -/
def AxisVal.toPyStr : AxisVal → String
  | .int n => toString n
  | .str s => s

/-- `itertools.product(*values)`: axes in the given order, later axes
varying fastest. -/
def pyProduct : List (List AxisVal) → List (List AxisVal)
  | [] => [[]]
  | vs :: rest =>
    let tails := pyProduct rest
    vs.flatMap (fun v => tails.map (fun t => v :: t))

/-- The name generated for one combination:
`template.format(**dict(zip(names, parameter_values)))`. -/
def comboName (template : List TplPart) (names : List String)
    (combo : List AxisVal) : Option String :=
  formatTpl template (names.zip (combo.map AxisVal.toPyStr))

/-- The full enumeration of generated names, in product order. -/
def comboNames (template : List TplPart)
    (kwargs : List (String × List AxisVal)) : Option (List String) :=
  (pyProduct (kwargs.map Prod.snd)).mapM
    (comboName template (kwargs.map Prod.fst))

/-- `FitParameters.expand_params`: one `add_param` per element of the
Cartesian product of the axis value lists. -/
def FitParameters.expand_params (fp : FitParameters) (template : List TplPart)
    (args : List ℚ) (kwargs : List (String × List AxisVal)) :
    Except Err FitParameters :=
  (pyProduct (kwargs.map Prod.snd)).foldlM
    (fun s combo =>
      match comboName template (kwargs.map Prod.fst) combo with
      | none => .error .keyError
      | some name => s.add_param name args)
    fp

/-- `np.min` (raises `ValueError` on an empty sample). -/
def listMin : List ℚ → Option ℚ
  | [] => none
  | x :: rest => some (rest.foldl min x)

/-- `np.max` (raises `ValueError` on an empty sample). -/
def listMax : List ℚ → Option ℚ
  | [] => none
  | x :: rest => some (rest.foldl max x)

/-- `FitParameters.add_observable`: without both `values` and args raise
`ConfigurationError`; with a sample derive `(min, max)` bounds; else
forward the args. -/
def FitParameters.add_observable (fp : FitParameters) (name : String)
    (args : List ℚ) (values : Option (List ℚ)) : Except Err FitParameters :=
  if values = none ∧ args = [] then
    .error (.configurationError
      "Need to define either values or default RooRealVar args.")
  else
    match values with
    | some vs =>
      match listMin vs, listMax vs with
      | some lo, some hi => fp.add_param name [lo, hi]
      | _, _ => .error .valueError
    | none => fp.add_param name args

/-- `pd.unique`: distinct values in order of first occurrence. -/
def pdUniqueAux : List ℚ → List ℚ → List ℚ
  | [], _ => []
  | x :: rest, seen =>
    if x ∈ seen then pdUniqueAux rest seen
    else x :: pdUniqueAux rest (x :: seen)

/-- `pd.unique(values)`. -/
def pdUnique (l : List ℚ) : List ℚ := pdUniqueAux l []

/-- `int(val)`: truncation toward zero. -/
def truncInt (q : ℚ) : ℤ := q.num / (q.den : ℤ)

/-- `str` of a rational sample value as used for category labels. -/
def ratLabel (q : ℚ) : String :=
  if q.den = 1 then toString q.num
  else toString q.num ++ "/" ++ toString q.den

/-- `FitParameters.add_category`: a raw `RooCategory` with one
`defineType(str(val), int(val))` per distinct observed value, registered
and bound through `__setattr__`. -/
def FitParameters.add_category (fp : FitParameters) (name : String)
    (values : List ℚ) : Except Err FitParameters :=
  let cat : CatVar :=
    ⟨name, (pdUnique values).map (fun v => (ratLabel v, truncInt v)), false⟩
  let fp1 : FitParameters :=
    { fp with param_list := listInsert fp.param_list name }
  pySetattr fp1 name (.obj (.rooCat cat))

/-- `FitParameters.pop`: drop the key from the tracked set if present,
then `self.__dict__.pop(key, default_value)`. -/
def FitParameters.pop (fp : FitParameters) (key : String) (default : PyVal) :
    PyVal × FitParameters :=
  let pl := if key ∈ fp.param_list then fp.param_list.erase key
            else fp.param_list
  match dictGet fp.attrs key with
  | some v => (v, { fp with param_list := pl, attrs := dictPop fp.attrs key })
  | none => (default, { fp with param_list := pl })

/-- The engine primitive exported for one tracked name. -/
inductive Prim where
  | var (v : RooRealVar)
  | cat (c : CatVar)
deriving DecidableEq, Repr

/-- The body of the `r` loop: `type(param) == FitParameters.RealVar`
exports the wrapped `param.var`; `type(param) == RooCategory` exports the
category itself; anything else is skipped. -/
def primView : PyVal → Option Prim
  | .obj (.realVar v) => some (.var v)
  | .obj (.rooCat c) => some (.cat c)
  | _ => none

/-- One iteration of the `r` property's loop (`getattr` then the two type
tests). -/
def rStep (attrs : List (String × PyVal)) (acc : List (String × Prim))
    (name : String) : Except Err (List (String × Prim)) :=
  match dictGet attrs name with
  | none => .error .attributeError
  | some v =>
    match primView v with
    | some p => .ok (acc ++ [(name, p)])
    | none => .ok acc

/-- The `r` property: the flat export bag built over `param_list`. -/
def FitParameters.r (fp : FitParameters) : Except Err (List (String × Prim)) :=
  fp.param_list.foldlM (rStep fp.attrs) []

/-- The export `r` would produce, written directly as a filter over the
tracked names (used to state what `r` returns). -/
def rView (fp : FitParameters) : List (String × Prim) :=
  fp.param_list.filterMap
    (fun n => ((dictGet fp.attrs n).bind primView).map (fun p => (n, p)))

/-- Insertion step of Python `sorted` over strings. -/
def insertSorted (x : String) : List String → List String
  | [] => [x]
  | y :: rest => if x ≤ y then x :: y :: rest else y :: insertSorted x rest

/-- `sorted(list(param_list))`. -/
def sortStrings (l : List String) : List String := l.foldr insertSorted []

/-- `10^e` over ℚ for an integer exponent. -/
def zpow10 (e : ℤ) : ℚ :=
  if 0 ≤ e then ((10 : ℚ) ^ e.toNat) else (1 : ℚ) / (10 : ℚ) ^ (-e).toNat

/-- `⌊log10 q⌋` for a nonzero rational. -/
def log10floor (q : ℚ) : ℤ :=
  let a : ℤ := (Nat.log 10 q.num.natAbs : ℤ)
  let b : ℤ := (Nat.log 10 q.den : ℤ)
  if zpow10 (a - b) ≤ |q| then a - b else a - b - 1

/-- Python `format(x, '.2g')` on a finite value: two significant digits,
scientific notation outside `[1e-4, 1e2)`, trailing zeros stripped. -/
def fmt2gRat (q : ℚ) : String :=
  if q = 0 then "0"
  else
    let sign := if q < 0 then "-" else ""
    let aq := |q|
    let e0 := log10floor aq
    let m0 : ℤ := ⌊aq * zpow10 (1 - e0) + 1 / 2⌋
    let m : ℤ := if 100 ≤ m0 then 10 else m0
    let e : ℤ := if 100 ≤ m0 then e0 + 1 else e0
    let d1 := (m / 10).toNat
    let d2 := (m % 10).toNat
    if 2 ≤ e ∨ e < -4 then
      let mant := if d2 = 0 then toString d1
                  else toString d1 ++ "." ++ toString d2
      let esign := if 0 ≤ e then "+" else "-"
      let eabs := e.natAbs
      let epad := if eabs < 10 then "0" ++ toString eabs else toString eabs
      sign ++ mant ++ "e" ++ esign ++ epad
    else if e = 1 then sign ++ toString d1 ++ toString d2
    else if e = 0 then
      sign ++ (if d2 = 0 then toString d1
               else toString d1 ++ "." ++ toString d2)
    else
      let zeros := String.join (List.replicate (e.natAbs - 1) "0")
      sign ++ "0." ++ zeros ++ toString d1 ++
        (if d2 = 0 then "" else toString d2)

/-- `format(x, '.2g')` on any float value. -/
def fmt2g : PyFloat → String
  | .num q => fmt2gRat q
  | .inf => "inf"
  | .ninf => "-inf"
  | .nan => "nan"

/-- `parameter.isConstant()`: defined on the wrapper (which forwards to
its variable), on a raw `RooRealVar` and on a `RooCategory`; other stored
objects raise `AttributeError`. -/
def isConstantAttr : PyVal → Option Bool
  | .obj (.realVar v) => some v.constant
  | .obj (.rooReal v) => some v.constant
  | .obj (.rooCat c) => some c.constant
  | _ => none

/-- One iteration of the `__repr__` loop.  Note the source's bounds branch
tests `type(parameter) == RooRealVar` against the raw engine class, so it
fires only for a raw `RooRealVar`, never for the collection's own
`FitParameters.RealVar` wrapper. -/
def reprStep (attrs : List (String × PyVal)) (s : String) (p : String) :
    Except Err String :=
  match dictGet attrs p with
  | none => .error .attributeError
  | some param =>
    match isConstantAttr param with
    | none => .error .attributeError
    | some c =>
      let s := s ++ "\n" ++ p
      if c then .ok (s ++ "\tconst")
      else
        match param with
        | .obj (.rooReal v) =>
          .ok (s ++ "\t" ++ fmt2g v.min ++ "\t" ++ fmt2g v.max)
        | _ => .ok s

/-- `FitParameters.__repr__`. -/
def FitParameters.pyRepr (fp : FitParameters) : Except Err String :=
  (sortStrings fp.param_list).foldlM (reprStep fp.attrs)
    s!"Parameter collection\n{fp.param_list.length} parameters:"

/-- The sampler's view of the variable it scans: `getMin`, `getMax` and
the mutable current value (the sampler is only ever used on a variable
with a finite range). -/
structure Variable where
  min : ℚ
  max : ℚ
  val : ℚ
deriving DecidableEq, Repr

/-- `Plotter.__init__`. -/
structure Plotter where
  sampling_steps : ℕ
deriving DecidableEq, Repr

/-- `np.linspace(lo, hi, n)`: `n` evenly spaced points, endpoints
inclusive. -/
def linspace (lo hi : ℚ) (n : ℕ) : List ℚ :=
  if n ≤ 1 then (List.range n).map (fun _ => lo)
  else (List.range n).map (fun i => lo + (hi - lo) * i / ((n : ℚ) - 1))

/-- Trapezoid sum over consecutive `(x, y)` pairs. -/
def trapzAux : List (ℚ × ℚ) → ℚ
  | (x1, y1) :: (x2, y2) :: rest =>
    (x2 - x1) * (y1 + y2) / 2 + trapzAux ((x2, y2) :: rest)
  | _ => 0

/-- `scipy.integrate.trapz(ys, xs)`. -/
def trapz (ys xs : List ℚ) : ℚ := trapzAux (xs.zip ys)

/-- The finite entries of a float list (`ys` when every value is finite). -/
def finProj (l : List PyFloat) : List ℚ :=
  l.filterMap (fun y => match y with | .num q => some q | _ => none)

/-- `Plotter.sample_pdf`: sample the pre-computed display curve of the
density (the external `pdf.plotOn(...).getCurve().interpolate`, passed
here as the function `curve`) at `sampling_steps` points across the
variable's range, mutating the variable's value to each sample point, and
optionally rescale by `norm / integral`.  Returns the mutated variable and
the `(xs, ys)` arrays. -/
def Plotter.sample_pdf (pl : Plotter) (curve : ℚ → ℚ) (vr : Variable)
    (norm : Option ℚ) : Variable × List ℚ × List PyFloat :=
  let xs := linspace vr.min vr.max pl.sampling_steps
  let vr' :=
    match xs.getLast? with
    | some x => { vr with val := x }
    | none => vr
  let ys0 := xs.map curve
  let ys : List PyFloat :=
    match norm with
    | none => ys0.map PyFloat.num
    | some t =>
      let integral := trapz ys0 xs
      ys0.map (fun y => pyMul (pyDiv (.num y) (.num integral)) (.num t))
  (vr', xs, ys)

/-! ### Result observers

Small projections used to state properties of `Except`-valued operations
without binding the result state. -/

/-- `true` exactly when the call raised `ConfigurationError`. -/
def isConfigError : Except Err FitParameters → Bool
  | .error (.configurationError _) => true
  | _ => false

/-- `true` exactly when the call returned normally. -/
def exceptOk : Except Err FitParameters → Bool
  | .ok _ => true
  | _ => false

/-- The tracked-name list of a successful result. -/
def okParamList : Except Err FitParameters → Option (List String)
  | .ok fp => some fp.param_list
  | .error _ => none

/-- `(getMin, getMax)` of the scalar stored under `name` in a successful
result. -/
def okMinMax (e : Except Err FitParameters) (name : String) :
    Option (PyFloat × PyFloat) :=
  match e with
  | .ok fp =>
    match dictGet fp.attrs name with
    | some (.obj (.realVar ev)) => some (ev.min, ev.max)
    | _ => none
  | .error _ => none

/-- `true` when every listed name is stored as a scalar wrapper in a
successful result. -/
def okAllScalar (e : Except Err FitParameters) (ns : List String) : Bool :=
  match e with
  | .ok fp =>
    ns.all (fun n =>
      match dictGet fp.attrs n with
      | some (.obj (.realVar _)) => true
      | _ => false)
  | .error _ => false

/-! ### Concrete fixtures -/

/-- The engine variable created by `add_param('a', 5)` on a fresh
collection. -/
def evA : RooRealVar := ⟨0, "a", 5, .ninf, .inf, true⟩

/-- A fresh collection after `add_param('a', 5)`. -/
def fpA : FitParameters := ⟨[("a", .obj (.realVar evA))], ["a"], 1, []⟩

/-- The state after a second `add_param('a', 7)` on `fpA`. -/
def fpB : FitParameters :=
  ⟨[("a", .obj (.realVar ⟨1, "a", 7, .ninf, .inf, true⟩))], ["a"], 2,
   [warningMsg "a"]⟩

/-- A fresh collection after `add_param('a', 0, 1)`: one non-constant
scalar with bounds `[0, 1]`. -/
def fpC4 : FitParameters :=
  ⟨[("a", .obj (.realVar ⟨0, "a", ((0 : ℚ) + 1) / 2, .num 0, .num 1, false⟩))],
   ["a"], 1, []⟩

/-- A concrete category primitive. -/
def catC : CatVar := ⟨"c", [("1", 1)], false⟩

/-- A collection tracking one scalar and one category. -/
def fpAC : FitParameters :=
  ⟨[("a", .obj (.realVar evA)), ("c", .obj (.rooCat catC))], ["a", "c"], 1, []⟩

/-- The tokenised template `"p_{a}_{b}"`. -/
def tplEx : List TplPart := [.lit "p_", .field "a", .lit "_", .field "b"]

/-- The axis lists `a=[1, 2]`, `b=["x", "y"]`. -/
def kwEx : List (String × List AxisVal) :=
  [("a", [.int 1, .int 2]), ("b", [.str "x", .str "y"])]

/-! ### Dictionary and setattr lemmas -/

theorem dictGet_dictSet_self (d : List (String × PyVal)) (k : String)
    (v : PyVal) : dictGet (dictSet d k v) k = some v := by
  induction d with
  | nil => simp [dictGet, dictSet]
  | cons p rest ih =>
    obtain ⟨k', w⟩ := p
    by_cases h : k' = k
    · simp [dictGet, dictSet, h]
    · simp [dictGet, dictSet, h, ih]

theorem dictGet_dictSet_ne (d : List (String × PyVal)) (k m : String)
    (v : PyVal) (h : m ≠ k) : dictGet (dictSet d k v) m = dictGet d m := by
  induction d with
  | nil => simp [dictGet, dictSet, Ne.symm h]
  | cons p rest ih =>
    obtain ⟨k', w⟩ := p
    by_cases h' : k' = k
    · subst h'
      simp [dictGet, dictSet, Ne.symm h]
    · simp [dictGet, dictSet, h', ih]

theorem pySetattr_obj (fp : FitParameters) (name : String) (o : PyObj) :
    pySetattr fp name (.obj o) =
      .ok { fp with
            attrs := dictSet fp.attrs name (.obj o),
            log := if pyHasattr fp name then fp.log ++ [warningMsg name]
                   else fp.log } := by
  unfold pySetattr
  by_cases h : pyHasattr fp name <;> simp [h, numericValue]

theorem add_param_eq (fp : FitParameters) (name : String) (args : List ℚ)
    (v : RooRealVar)
    (h : RooRealVar.construct fp.nextId name args = some v) :
    fp.add_param name args =
      .ok { attrs := dictSet fp.attrs name (.obj (.realVar v)),
            param_list := listInsert fp.param_list name,
            nextId := fp.nextId + 1,
            log := if pyHasattr fp name then fp.log ++ [warningMsg name]
                   else fp.log } := by
  unfold FitParameters.add_param
  rw [h]
  exact pySetattr_obj _ name (.realVar v)

/-! ### C1: re-adding a tracked name -/

/-- C1 (amended): calling `add_param` again on a tracked scalar name does
not mutate the stored entity in place; it constructs a fresh engine
variable (id `fp.nextId`) holding the new value, prints the override
warning, and rebinds the attribute to it, leaving the tracked-name list
unchanged. -/
theorem add_param_redefine_replaces (fp : FitParameters) (name : String)
    (v : ℚ) (ev : RooRealVar)
    (h : dictGet fp.attrs name = some (.obj (.realVar ev)))
    (hmem : name ∈ fp.param_list) :
    fp.add_param name [v] =
      .ok { attrs := dictSet fp.attrs name
              (.obj (.realVar ⟨fp.nextId, name, v, .ninf, .inf, true⟩)),
            param_list := fp.param_list,
            nextId := fp.nextId + 1,
            log := fp.log ++ [warningMsg name] } := by
  rw [add_param_eq fp name [v] ⟨fp.nextId, name, v, .ninf, .inf, true⟩ rfl]
  have h1 : pyHasattr fp name = true := by simp [pyHasattr, h]
  simp [h1, listInsert, hmem]

/-- Witness for C1 (amended) at a concrete state. -/
theorem add_param_redefine_replaces_wit :
    FitParameters.add_param fpA "a" [7] = .ok fpB :=
  add_param_redefine_replaces fpA "a" 7 evA rfl (by decide)

/-- C1 (counterexample): on a fresh collection, `add_param('a', 5)` then
`add_param('a', 7)` leaves the name tracked once but binds a different
entity (creation id `1` instead of the original `0`): the stored entity is
replaced, not mutated in place. -/
theorem add_param_redefine_cx :
    FitParameters.add_param initFitParameters "a" [5] = .ok fpA ∧
    FitParameters.add_param fpA "a" [7] = .ok fpB ∧
    dictGet fpA.attrs "a" =
      some (.obj (.realVar ⟨0, "a", 5, .ninf, .inf, true⟩)) ∧
    dictGet fpB.attrs "a" =
      some (.obj (.realVar ⟨1, "a", 7, .ninf, .inf, true⟩)) ∧
    dictGet fpB.attrs "a" ≠ dictGet fpA.attrs "a" ∧
    fpB.param_list = fpA.param_list ∧
    fpB.log = [warningMsg "a"] :=
  ⟨rfl, rfl, rfl, rfl, by decide, rfl, rfl⟩

/-! ### C2: attribute-style assignment -/

/-- C2: assigning a numeric value (`float` or `int`) to a tracked scalar
name mutates the stored entity's value in place (same creation id, no
warning, nothing else changes), while assigning any non-numeric value
rebinds the attribute to the new object and prints the override
warning. -/
theorem setattr_numeric_in_place (fp : FitParameters) (name : String)
    (q : ℚ) (n : ℤ) (vo : PyVal) (ev : RooRealVar)
    (hmem : name ∈ fp.param_list)
    (h : dictGet fp.attrs name = some (.obj (.realVar ev)))
    (hvo : numericValue vo = none) :
    pySetattr fp name (.float q) =
      .ok { fp with attrs := (dictSet fp.attrs name
              (.obj (.realVar { ev with val := q }))) } ∧
    pySetattr fp name (.int n) =
      .ok { fp with attrs := (dictSet fp.attrs name
              (.obj (.realVar { ev with val := (n : ℚ) }))) } ∧
    pySetattr fp name vo =
      .ok { fp with attrs := dictSet fp.attrs name vo,
                    log := fp.log ++ [warningMsg name] } := by
  have h1 : pyHasattr fp name = true := by simp [pyHasattr, h]
  refine ⟨?_, ?_, ?_⟩
  · simp [pySetattr, h1, numericValue, h, PyVal.trySetVal]
  · simp [pySetattr, h1, numericValue, h, PyVal.trySetVal]
  · simp [pySetattr, h1, hvo]

/-- Witness for C2 at a concrete state. -/
theorem setattr_numeric_in_place_wit :
    pySetattr fpA "a" (.float 2) =
      .ok ⟨[("a", .obj (.realVar ⟨0, "a", 2, .ninf, .inf, true⟩))],
           ["a"], 1, []⟩ ∧
    pySetattr fpA "a" (.int 3) =
      .ok ⟨[("a", .obj (.realVar ⟨0, "a", ((3 : ℤ) : ℚ), .ninf, .inf, true⟩))],
           ["a"], 1, []⟩ ∧
    pySetattr fpA "a" (.obj (.pyStr "oops")) =
      .ok ⟨[("a", .obj (.pyStr "oops"))], ["a"], 1, [warningMsg "a"]⟩ :=
  setattr_numeric_in_place fpA "a" 2 3 (.obj (.pyStr "oops")) evA
    (by decide) rfl rfl

/-! ### C4: the collection's repr -/

/-- C4 (code bug): after `add_param('a', 0, 1)` the collection holds one
non-constant scalar with bounds `[0, 1]`, yet `__repr__` renders it by
name only — the bounds branch tests `type(parameter) == RooRealVar`
against the raw engine class, which a `FitParameters.RealVar` wrapper
never satisfies, so no `[min, max]` annotation is ever produced for
collection-created scalars. -/
theorem repr_omits_nonconstant_scalar_bounds :
    FitParameters.add_param initFitParameters "a" [0, 1] = .ok fpC4 ∧
    (fpC4.attrs = [("a", .obj (.realVar
        ⟨0, "a", ((0 : ℚ) + 1) / 2, .num 0, .num 1, false⟩))]) ∧
    FitParameters.pyRepr fpC4 = .ok "Parameter collection\n1 parameters:\na" :=
  ⟨rfl, rfl, rfl⟩

/-! ### C8: pop -/

/-- C8: `pop` on an absent name returns the supplied default and leaves
the tracked-name count unchanged; `pop` on a present name returns the
stored parameter, evicts the name, and shrinks the count by exactly
one. -/
theorem pop_absent_present (fp : FitParameters) (key : String)
    (default v : PyVal) :
    ((key ∉ fp.param_list ∧ dictGet fp.attrs key = none) →
      (fp.pop key default).1 = default ∧
      (fp.pop key default).2.param_list.length = fp.param_list.length) ∧
    ((fp.param_list.Nodup ∧ key ∈ fp.param_list ∧
        dictGet fp.attrs key = some v) →
      (fp.pop key default).1 = v ∧
      (fp.pop key default).2.param_list.length + 1 = fp.param_list.length ∧
      key ∉ (fp.pop key default).2.param_list) := by
  constructor
  · rintro ⟨h1, h2⟩
    simp [FitParameters.pop, h1, h2]
  · rintro ⟨hnd, h1, h2⟩
    have hlen : (fp.param_list.erase key).length = fp.param_list.length - 1 :=
      List.length_erase_of_mem h1
    have hpos : 0 < fp.param_list.length :=
      List.length_pos.mpr (List.ne_nil_of_mem h1)
    refine ⟨?_, ?_, ?_⟩ <;> simp [FitParameters.pop, h1, h2]
    · omega
    · exact hnd.not_mem_erase

/-- Witness for C8: both branches at a concrete state. -/
theorem pop_absent_present_wit :
    ((FitParameters.pop fpA "z" .pyNone).1 = .pyNone ∧
      (FitParameters.pop fpA "z" .pyNone).2.param_list.length =
        fpA.param_list.length) ∧
    ((FitParameters.pop fpA "a" .pyNone).1 = .obj (.realVar evA) ∧
      (FitParameters.pop fpA "a" .pyNone).2.param_list.length + 1 =
        fpA.param_list.length ∧
      "a" ∉ (FitParameters.pop fpA "a" .pyNone).2.param_list) :=
  ⟨(pop_absent_present fpA "z" .pyNone .pyNone).1 ⟨by decide, rfl⟩,
   (pop_absent_present fpA "a" .pyNone (.obj (.realVar evA))).2
     ⟨by decide, by decide, rfl⟩⟩

/-! ### C5 and C10: add_observable -/

theorem add_param_no_configError (fp : FitParameters) (name : String)
    (args : List ℚ) : isConfigError (fp.add_param name args) = false := by
  cases hc : RooRealVar.construct fp.nextId name args with
  | none =>
    unfold FitParameters.add_param
    rw [hc]
    rfl
  | some v =>
    rw [add_param_eq fp name args v hc]
    rfl

theorem listMin_ex : listMin [3, 1, 4, 1, 5] = some 1 := by
  norm_num [listMin, List.foldl, min_def]

theorem listMax_ex : listMax [3, 1, 4, 1, 5] = some 5 := by
  norm_num [listMax, List.foldl, max_def]

/-- C5: `add_observable` raises `ConfigurationError` exactly when neither
a values sample nor construction arguments are supplied; with the sample
`[3, 1, 4, 1, 5]` it succeeds and the constructed scalar's bounds are the
sample's minimum `1` and maximum `5`. -/
theorem add_observable_config_iff (fp : FitParameters) (name : String)
    (args : List ℚ) (values : Option (List ℚ)) :
    (isConfigError (fp.add_observable name args values) = true ↔
      (values = none ∧ args = [])) ∧
    exceptOk (fp.add_observable name [] (some [3, 1, 4, 1, 5])) = true ∧
    okMinMax (fp.add_observable name [] (some [3, 1, 4, 1, 5])) name =
      some (.num 1, .num 5) := by
  have h5 : fp.add_observable name [] (some [3, 1, 4, 1, 5]) =
      fp.add_param name [1, 5] := by
    simp [FitParameters.add_observable, listMin_ex, listMax_ex]
  have h5' := add_param_eq fp name [1, 5]
    ⟨fp.nextId, name, ((1 : ℚ) + 5) / 2, .num 1, .num 5, false⟩ rfl
  refine ⟨?_, ?_, ?_⟩
  · rcases values with _ | vs
    · by_cases ha : args = []
      · simp [FitParameters.add_observable, ha, isConfigError]
      · simp [FitParameters.add_observable, ha, add_param_no_configError]
    · cases hm : listMin vs with
      | none =>
        cases hx : listMax vs with
        | none => simp [FitParameters.add_observable, hm, hx, isConfigError]
        | some hi => simp [FitParameters.add_observable, hm, hx, isConfigError]
      | some lo =>
        cases hx : listMax vs with
        | none => simp [FitParameters.add_observable, hm, hx, isConfigError]
        | some hi =>
          simp [FitParameters.add_observable, hm, hx, add_param_no_configError]
  · rw [h5, h5']
    rfl
  · rw [h5, h5']
    simp [okMinMax, dictGet_dictSet_self]

/-- C10: when both a values sample and construction arguments are given,
`add_observable` derives the bounds from the sample and ignores the
arguments entirely: the call is the same as `add_param(name, min, max)`,
and the stored scalar's bounds are the sample extremes. -/
theorem add_observable_values_precedence (fp : FitParameters) (name : String)
    (args : List ℚ) (vs : List ℚ) (lo hi : ℚ)
    (hmin : listMin vs = some lo) (hmax : listMax vs = some hi) :
    fp.add_observable name args (some vs) = fp.add_param name [lo, hi] ∧
    okMinMax (fp.add_observable name args (some vs)) name =
      some (.num lo, .num hi) := by
  have h0 : fp.add_observable name args (some vs) =
      fp.add_param name [lo, hi] := by
    simp [FitParameters.add_observable, hmin, hmax]
  refine ⟨h0, ?_⟩
  rw [h0, add_param_eq fp name [lo, hi]
    ⟨fp.nextId, name, (lo + hi) / 2, .num lo, .num hi, false⟩ rfl]
  simp [okMinMax, dictGet_dictSet_self]

/-- Witness for C10 at a concrete input (`values=[3,1,4,1,5]`, explicit
arguments `[9]` silently ignored). -/
theorem add_observable_values_precedence_wit :
    FitParameters.add_observable initFitParameters "x" [9]
        (some [3, 1, 4, 1, 5]) =
      FitParameters.add_param initFitParameters "x" [1, 5] ∧
    okMinMax (FitParameters.add_observable initFitParameters "x" [9]
        (some [3, 1, 4, 1, 5])) "x" = some (.num 1, .num 5) :=
  add_observable_values_precedence initFitParameters "x" [9] [3, 1, 4, 1, 5]
    1 5 listMin_ex listMax_ex

/-! ### C6: template expansion -/

theorem construct_arity (id : ℕ) (name : String) (args : List ℚ)
    (h : args.length = 1 ∨ args.length = 2 ∨ args.length = 3) :
    ∃ v, RooRealVar.construct id name args = some v := by
  rcases args with _ | ⟨a, _ | ⟨b, _ | ⟨c, _ | ⟨d, t⟩⟩⟩⟩
  · simp at h
  · exact ⟨_, rfl⟩
  · exact ⟨_, rfl⟩
  · exact ⟨_, rfl⟩
  · simp [List.length_cons] at h

theorem add_param_ok (fp : FitParameters) (name : String) (args : List ℚ)
    (hargs : args.length = 1 ∨ args.length = 2 ∨ args.length = 3) :
    ∃ fp', fp.add_param name args = .ok fp' ∧
      fp'.param_list = listInsert fp.param_list name ∧
      (∃ ev, dictGet fp'.attrs name = some (.obj (.realVar ev))) ∧
      (∀ m, m ≠ name → dictGet fp'.attrs m = dictGet fp.attrs m) := by
  obtain ⟨v, hv⟩ := construct_arity fp.nextId name args hargs
  refine ⟨_, add_param_eq fp name args v hv, rfl, ⟨v, ?_⟩, ?_⟩
  · exact dictGet_dictSet_self fp.attrs name _
  · intro m hm
    exact dictGet_dictSet_ne fp.attrs name m _ hm

theorem add_param_fold (args : List ℚ)
    (hargs : args.length = 1 ∨ args.length = 2 ∨ args.length = 3) :
    ∀ (names : List String) (fp : FitParameters),
    ∃ fp', names.foldlM (fun s n => s.add_param n args) fp = .ok fp' ∧
      fp'.param_list = names.foldl listInsert fp.param_list ∧
      (∀ n ∈ names, ∃ ev, dictGet fp'.attrs n = some (.obj (.realVar ev))) ∧
      (∀ m, (∃ ev, dictGet fp.attrs m = some (.obj (.realVar ev))) →
        ∃ ev, dictGet fp'.attrs m = some (.obj (.realVar ev))) := by
  intro names
  induction names with
  | nil =>
    intro fp
    exact ⟨fp, rfl, rfl, by simp, fun m h => h⟩
  | cons n ns ih =>
    intro fp
    obtain ⟨fp1, h1, hpl1, hsc1, hpres1⟩ := add_param_ok fp n args hargs
    obtain ⟨fp', h2, hpl2, hsc2, hpres2⟩ := ih fp1
    have hstep : (n :: ns).foldlM (fun s m => s.add_param m args) fp = .ok fp' := by
      rw [List.foldlM_cons, h1]
      exact h2
    refine ⟨fp', hstep, ?_, ?_, ?_⟩
    · rw [hpl2, hpl1, List.foldl_cons]
    · intro x hx
      rcases List.mem_cons.mp hx with rfl | hx'
      · exact hpres2 x hsc1
      · exact hsc2 x hx'
    · intro m hm
      by_cases hmn : m = n
      · subst hmn
        exact hpres2 m hsc1
      · refine hpres2 m ?_
        rw [hpres1 m hmn]
        exact hm

theorem expand_go (template : List TplPart) (args : List ℚ)
    (axes : List String) :
    ∀ (combos : List (List AxisVal)) (ns : List String) (fp : FitParameters),
    combos.mapM (comboName template axes) = some ns →
    combos.foldlM (fun s combo =>
      match comboName template axes combo with
      | none => Except.error Err.keyError
      | some name => s.add_param name args) fp =
    ns.foldlM (fun s n => s.add_param n args) fp := by
  intro combos
  induction combos with
  | nil =>
    intro ns fp h
    simp only [List.mapM_nil, Option.pure_def, Option.some.injEq] at h
    subst h
    rfl
  | cons c cs ih =>
    intro ns fp h
    rw [List.mapM_cons] at h
    cases hn : comboName template axes c with
    | none => rw [hn] at h; simp at h
    | some n =>
      rw [hn] at h
      cases hrest : cs.mapM (comboName template axes) with
      | none => rw [hrest] at h; simp at h
      | some ns' =>
        rw [hrest] at h
        simp at h
        subst h
        rw [List.foldlM_cons, List.foldlM_cons, hn]
        exact bind_congr fun s => ih ns' s hrest

theorem expand_eq_fold (fp : FitParameters) (template : List TplPart)
    (args : List ℚ) (kwargs : List (String × List AxisVal)) (ns : List String)
    (hns : comboNames template kwargs = some ns) :
    fp.expand_params template args kwargs =
      ns.foldlM (fun s n => s.add_param n args) fp :=
  expand_go template args (kwargs.map Prod.fst)
    (pyProduct (kwargs.map Prod.snd)) ns fp hns

/-- C6: `expand_params` performs one `add_param` per element of the
Cartesian product of the axis value lists (axes in the given order, later
axes varying fastest), each under the name obtained by substituting that
combination into the template; the tracked-name list afterwards is the
original extended, in enumeration order, with the generated names, each
stored as a scalar. -/
theorem expand_params_cartesian (fp : FitParameters) (template : List TplPart)
    (args : List ℚ) (kwargs : List (String × List AxisVal)) (ns : List String)
    (hns : comboNames template kwargs = some ns)
    (hargs : args.length = 1 ∨ args.length = 2 ∨ args.length = 3) :
    okParamList (fp.expand_params template args kwargs) =
      some (ns.foldl listInsert fp.param_list) ∧
    okAllScalar (fp.expand_params template args kwargs) ns = true := by
  have heq := expand_eq_fold fp template args kwargs ns hns
  obtain ⟨fp', hok, hpl, hall, _⟩ := add_param_fold args hargs ns fp
  rw [heq, hok]
  constructor
  · simp [okParamList, hpl]
  · simp only [okAllScalar]
    rw [List.all_eq_true]
    intro n hn
    obtain ⟨ev, hev⟩ := hall n hn
    simp [hev]

/-- Witness for C6: the spec's example, `"p_{a}_{b}"` with `a=[1,2]`,
`b=["x","y"]`, yields exactly the four tracked scalars `p_1_x`, `p_1_y`,
`p_2_x`, `p_2_y`, in product order. -/
theorem expand_params_cartesian_wit :
    okParamList (FitParameters.expand_params initFitParameters tplEx [0, 1]
        kwEx) = some ["p_1_x", "p_1_y", "p_2_x", "p_2_y"] ∧
    okAllScalar (FitParameters.expand_params initFitParameters tplEx [0, 1]
        kwEx) ["p_1_x", "p_1_y", "p_2_x", "p_2_y"] = true :=
  expand_params_cartesian initFitParameters tplEx [0, 1] kwEx
    ["p_1_x", "p_1_y", "p_2_x", "p_2_y"] rfl (Or.inr (Or.inl rfl))

/-! ### C7: the export view -/

theorem r_go (attrs : List (String × PyVal)) :
    ∀ (names : List String) (acc : List (String × Prim)),
    (∀ n ∈ names, ((dictGet attrs n).bind primView).isSome = true) →
    names.foldlM (rStep attrs) acc =
      .ok (acc ++ names.filterMap
        (fun n => ((dictGet attrs n).bind primView).map (fun p => (n, p)))) := by
  intro names
  induction names with
  | nil =>
    intro acc h
    simp only [List.foldlM_nil, List.filterMap_nil, List.append_nil]
    rfl
  | cons n ns ih =>
    intro acc h
    have hn := h n (List.mem_cons_self n ns)
    cases hv : dictGet attrs n with
    | none => rw [hv] at hn; simp at hn
    | some v =>
      cases hp : primView v with
      | none => rw [hv] at hn; simp [hp] at hn
      | some p =>
        rw [List.foldlM_cons]
        have hstep : rStep attrs acc n = .ok (acc ++ [(n, p)]) := by
          simp [rStep, hv, hp]
        rw [hstep]
        show ns.foldlM (rStep attrs) (acc ++ [(n, p)]) = _
        rw [ih (acc ++ [(n, p)]) (fun m hm => h m (List.mem_cons_of_mem _ hm))]
        rw [@List.filterMap_cons_some String (String × Prim)
          (fun m => ((dictGet attrs m).bind primView).map (fun p => (m, p)))
          n ns (n, p) (by simp [hv, hp])]
        simp

theorem filterMap_pair_fst (g : String → Option Prim) :
    ∀ l : List String, (∀ n ∈ l, (g n).isSome = true) →
    (l.filterMap (fun n => (g n).map (fun p => (n, p)))).map Prod.fst = l := by
  intro l
  induction l with
  | nil => intro h; simp
  | cons n ns ih =>
    intro h
    obtain ⟨p, hp⟩ :=
      Option.isSome_iff_exists.mp (h n (List.mem_cons_self n ns))
    rw [@List.filterMap_cons_some String (String × Prim)
      (fun m => (g m).map (fun p => (m, p))) n ns (n, p) (by simp [hp])]
    simp [ih (fun m hm => h m (List.mem_cons_of_mem _ hm))]

theorem rView_fst (fp : FitParameters)
    (h : ∀ n ∈ fp.param_list, ((dictGet fp.attrs n).bind primView).isSome = true) :
    (rView fp).map Prod.fst = fp.param_list := by
  unfold rView
  exact filterMap_pair_fst (fun n => (dictGet fp.attrs n).bind primView)
    fp.param_list h

/-- C7: whenever every tracked name is stored as a scalar wrapper or a raw
category (the invariant the collection's own add operations maintain), the
`r` export contains exactly one entry per tracked name — the wrapped
engine variable for a scalar, the category itself for a category — and
nothing else. -/
theorem r_exports_exactly_tracked (fp : FitParameters)
    (h : ∀ n ∈ fp.param_list, ((dictGet fp.attrs n).bind primView).isSome = true) :
    fp.r = .ok (rView fp) ∧ (rView fp).map Prod.fst = fp.param_list := by
  constructor
  · unfold FitParameters.r rView
    simpa using r_go fp.attrs fp.param_list [] h
  · exact rView_fst fp h

/-- Witness for C7 at a collection tracking one scalar and one category. -/
theorem r_exports_exactly_tracked_wit :
    FitParameters.r fpAC = .ok [("a", .var evA), ("c", .cat catC)] ∧
    (rView fpAC).map Prod.fst = fpAC.param_list :=
  r_exports_exactly_tracked fpAC (by decide)

/-! ### C3 and C9: the curve sampler's normalization -/

theorem zip_map_right' (f : ℚ → ℚ) :
    ∀ (xs ys : List ℚ), xs.zip (ys.map f) = (xs.zip ys).map (fun p => (p.1, f p.2)) := by
  intro xs
  induction xs with
  | nil => intro ys; simp
  | cons x xs ih =>
    intro ys
    cases ys with
    | nil => simp
    | cons y ys => simp [List.zip_cons_cons, ih]

theorem trapzAux_map_mul (c : ℚ) :
    ∀ l : List (ℚ × ℚ), trapzAux (l.map (fun p => (p.1, p.2 * c))) = trapzAux l * c := by
  intro l
  induction l with
  | nil => simp [trapzAux]
  | cons p rest ih =>
    cases rest with
    | nil => simp [trapzAux]
    | cons q rest2 =>
      obtain ⟨x1, y1⟩ := p
      obtain ⟨x2, y2⟩ := q
      simp only [List.map_cons] at ih ⊢
      simp only [trapzAux]
      rw [ih]
      ring

theorem trapz_map_mul (c : ℚ) (ys xs : List ℚ) :
    trapz (ys.map (fun y => y * c)) xs = trapz ys xs * c := by
  unfold trapz
  rw [zip_map_right' (fun y => y * c) xs ys]
  exact trapzAux_map_mul c (xs.zip ys)

theorem finProj_map_num (g : ℚ → ℚ) :
    ∀ l : List ℚ, finProj (l.map (fun y => PyFloat.num (g y))) = l.map g := by
  intro l
  induction l with
  | nil => rfl
  | cons y l ih => simp [finProj, List.filterMap_cons] at ih ⊢; exact ih

theorem pyNorm_num (y I t : ℚ) (hI : I ≠ 0) :
    pyMul (pyDiv (.num y) (.num I)) (.num t) = .num (y / I * t) := by
  simp [pyDiv, pyMul, hI]

theorem normalize_exact (xs ys0 : List ℚ) (t I : ℚ) (hI : I ≠ 0) :
    (ys0.map (fun y => pyMul (pyDiv (.num y) (.num I)) (.num t))).all
      PyFloat.isFinite = true ∧
    trapz (finProj (ys0.map
        (fun y => pyMul (pyDiv (.num y) (.num I)) (.num t)))) xs =
      trapz ys0 xs * (t / I) := by
  have hfun : (fun y => pyMul (pyDiv (PyFloat.num y) (.num I)) (.num t)) =
      fun y => PyFloat.num (y * (t / I)) := by
    funext y
    rw [pyNorm_num y I t hI, div_mul_eq_mul_div, mul_div_assoc]
  rw [hfun]
  constructor
  · simp [List.all_eq_true, PyFloat.isFinite]
  · rw [finProj_map_num (fun y => y * (t / I)) ys0]
    exact trapz_map_mul (t / I) ys0 xs

/-- C9: when a normalization target is given and the unscaled trapezoidal
integral is nonzero, every returned y-value is finite and the trapezoidal
integral of the returned `(x, y)` pairs equals the target exactly (exact
rational arithmetic). -/
theorem sample_pdf_normalize_integral (pl : Plotter) (curve : ℚ → ℚ)
    (vr : Variable) (t : ℚ)
    (hI : trapz ((linspace vr.min vr.max pl.sampling_steps).map curve)
        (linspace vr.min vr.max pl.sampling_steps) ≠ 0) :
    ((pl.sample_pdf curve vr (some t)).2.2).all PyFloat.isFinite = true ∧
    trapz (finProj ((pl.sample_pdf curve vr (some t)).2.2))
        ((pl.sample_pdf curve vr (some t)).2.1) = t := by
  have e1 : (pl.sample_pdf curve vr (some t)).2.1 =
      linspace vr.min vr.max pl.sampling_steps := rfl
  have e2 : (pl.sample_pdf curve vr (some t)).2.2 =
      ((linspace vr.min vr.max pl.sampling_steps).map curve).map
        (fun y => pyMul (pyDiv (.num y)
            (.num (trapz
              ((linspace vr.min vr.max pl.sampling_steps).map curve)
              (linspace vr.min vr.max pl.sampling_steps)))) (.num t)) := rfl
  rw [e1, e2]
  obtain ⟨h1, h2⟩ := normalize_exact (linspace vr.min vr.max pl.sampling_steps)
    ((linspace vr.min vr.max pl.sampling_steps).map curve) t
    (trapz ((linspace vr.min vr.max pl.sampling_steps).map curve)
      (linspace vr.min vr.max pl.sampling_steps)) hI
  refine ⟨h1, ?_⟩
  rw [h2, mul_comm, div_mul_cancel₀ t hI]

/-- Witness for C9: a constant density over `[0, 1]` sampled at 2 points,
normalized to 5. -/
theorem sample_pdf_normalize_integral_wit :
    ((Plotter.sample_pdf ⟨2⟩ (fun _ => 1) ⟨0, 1, 0⟩ (some 5)).2.2).all
      PyFloat.isFinite = true ∧
    trapz (finProj ((Plotter.sample_pdf ⟨2⟩ (fun _ => 1) ⟨0, 1, 0⟩
        (some 5)).2.2))
      ((Plotter.sample_pdf ⟨2⟩ (fun _ => 1) ⟨0, 1, 0⟩ (some 5)).2.1) = 5 :=
  sample_pdf_normalize_integral ⟨2⟩ (fun _ => 1) ⟨0, 1, 0⟩ 5
    (by norm_num [linspace, List.range_succ, trapz, trapzAux,
      List.zip_cons_cons])

theorem pyMul_nonfinite_left (X : PyFloat) (hX : X.isFinite = false) (t : ℚ) :
    (pyMul X (.num t)).isFinite = false := by
  cases X with
  | num q => simp [PyFloat.isFinite] at hX
  | inf =>
    by_cases h : 0 < t
    · simp [pyMul, h, PyFloat.isFinite]
    · by_cases h' : t < 0 <;> simp [pyMul, h, h', PyFloat.isFinite]
  | ninf =>
    by_cases h : 0 < t
    · simp [pyMul, h, PyFloat.isFinite]
    · by_cases h' : t < 0 <;> simp [pyMul, h, h', PyFloat.isFinite]
  | nan => simp [pyMul, PyFloat.isFinite]

theorem div_zero_mul_nonfinite (a t : ℚ) :
    (pyMul (pyDiv (.num a) (.num 0)) (.num t)).isFinite = false := by
  apply pyMul_nonfinite_left
  by_cases h : 0 < a
  · simp [pyDiv, h, PyFloat.isFinite]
  · by_cases h' : a < 0 <;> simp [pyDiv, h, h', PyFloat.isFinite]

/-- C3 (amended): when the trapezoidal integral of the sampled y-values is
zero, the normalization division does not raise — numpy emits a runtime
warning and produces non-finite values — so the sampler returns normally
with every y-value non-finite (`nan` or `±inf`). -/
theorem sample_pdf_zero_integral_returns (pl : Plotter) (curve : ℚ → ℚ)
    (vr : Variable) (t : ℚ)
    (h : trapz ((linspace vr.min vr.max pl.sampling_steps).map curve)
        (linspace vr.min vr.max pl.sampling_steps) = 0) :
    ((pl.sample_pdf curve vr (some t)).2.2).all
      (fun y => !y.isFinite) = true := by
  have e2 : (pl.sample_pdf curve vr (some t)).2.2 =
      ((linspace vr.min vr.max pl.sampling_steps).map curve).map
        (fun y => pyMul (pyDiv (.num y)
            (.num (trapz
              ((linspace vr.min vr.max pl.sampling_steps).map curve)
              (linspace vr.min vr.max pl.sampling_steps)))) (.num t)) := rfl
  rw [e2, h, List.all_eq_true]
  intro y hy
  obtain ⟨y0, _, rfl⟩ := List.mem_map.mp hy
  simp [div_zero_mul_nonfinite]

/-- Witness for C3 (amended): the identically zero curve over `[0, 1]`. -/
theorem sample_pdf_zero_integral_returns_wit :
    ((Plotter.sample_pdf ⟨2⟩ (fun _ => 0) ⟨0, 1, 0⟩ (some 1)).2.2).all
      (fun y => !y.isFinite) = true :=
  sample_pdf_zero_integral_returns ⟨2⟩ (fun _ => 0) ⟨0, 1, 0⟩ 1
    (by norm_num [linspace, List.range_succ, trapz, trapzAux,
      List.zip_cons_cons])

/-- C3 (counterexample): with the identically zero curve the integral is
zero, yet `sample_pdf` returns its arrays normally — the x-samples and
NaN y-values — instead of raising an error. -/
theorem sample_pdf_zero_integral_cx :
    (Plotter.sample_pdf ⟨2⟩ (fun _ => 0) ⟨0, 1, 0⟩ (some 1)).2.1 = [0, 1] ∧
    (Plotter.sample_pdf ⟨2⟩ (fun _ => 0) ⟨0, 1, 0⟩ (some 1)).2.2 =
      [PyFloat.nan, PyFloat.nan] := by
  constructor <;>
    norm_num [Plotter.sample_pdf, linspace, List.range_succ, trapz,
      trapzAux, List.zip_cons_cons, pyDiv, pyMul]
